import Mathlib

/-!
Verification of the NYC-TLC-Trip-Data repository's core against its
natural-language specification.

The embedding below translates the Python sources into Lean:
  * `base.py` — filename parsing, fragment filtering, and the
    HEAD-then-GET remote-info prober of `ArrowHTTPFileSystem`;
  * `extract_trips_data.py` — the per-fragment sync decision, the web
    candidate-URL synthesis, and the parallel orchestration of
    `extract_trip_file`;
  * `extract_trips_metadata.py` — the `_filter_allowed_fragment`
    predicate (textually identical parsing to `base.py`);
  * `extract_zones_data.py` — the freshness check of
    `safe_download_file`.

Machine integers are modelled as `Nat`/`Int` (none of the modelled
arithmetic can overflow Python's unbounded ints), timestamps as `Int`,
fallible code as `Option`/`Except`, and HTTP traffic as explicit data
passed to the functions that inspect it.
-/

/-- Separator class of `re.split(r"[_.-]", file_name)` used by
`base.is_allowed_fragment`, `extract_trips_metadata._filter_allowed_fragment`
and `extract_trips_data.extract_trip_file`. -/
def sepChar (c : Char) : Bool := c = '_' || c = '.' || c = '-'

/-- Separator used by Python's `str.split("/")`. -/
def slashChar (c : Char) : Bool := c = '/'

/-- Splitting a character list at every separator, keeping empty pieces,
exactly as Python's `re.split` on a single-character class (and
`str.split` with a one-character argument) does.  The result is never
empty: splitting the empty string yields `[[]]`. -/
def splitChars (p : Char → Bool) : List Char → List (List Char)
  | [] => [[]]
  | c :: cs =>
    if p c then
      [] :: splitChars p cs
    else
      match splitChars p cs with
      | [] => [[c]]
      | t :: ts => (c :: t) :: ts

/-- Accumulator loop of decimal digit parsing: fails on the first
non-digit character. -/
def pyDigitsCore : List Char → Nat → Option Nat
  | [], acc => some acc
  | c :: cs, acc => if c.isDigit then pyDigitsCore cs (acc * 10 + (c.toNat - 48)) else none

/-- Value of a non-empty run of decimal digits, `none` for the empty list
or any non-digit. -/
def pyDigits (cs : List Char) : Option Nat :=
  match cs with
  | [] => none
  | _ => pyDigitsCore cs 0

/-- Whitespace stripping from both ends, as Python's `int` applies to its
argument before parsing. -/
def pyTrim (cs : List Char) : List Char :=
  ((cs.dropWhile Char.isWhitespace).reverse.dropWhile Char.isWhitespace).reverse

/-- Python's `int(s)` on a decimal string literal: surrounding whitespace
is ignored, one optional leading sign, then a non-empty digit run;
anything else raises `ValueError`, modelled as `none`.  (Python's digit
grouping underscores are not modelled: every call site first splits its
input on `'_'`, so no argument can contain one.) -/
def pyInt (s : String) : Option Int :=
  match pyTrim s.data with
  | [] => none
  | '-' :: rest => (pyDigits rest).map (fun n => -(n : Int))
  | '+' :: rest => (pyDigits rest).map (fun n => (n : Int))
  | cs => (pyDigits cs).map (fun n => (n : Int))

/-- Python's `path.split("/")[-1]`: the last slash-separated piece of a
path (`base.py` line 103, `extract_trips_metadata.py` line 158,
`extract_trips_data.py` line 156). -/
def py_basename (path : String) : String :=
  ⟨(splitChars slashChar path.data).getLastD []⟩

/-- Identity of a trip-data fragment recovered from its filename. -/
structure FragmentMeta where
  record_type : String
  year : Int
  month : Int
deriving DecidableEq, Repr

/-- The filename decomposition shared verbatim by `base.is_allowed_fragment`
(lines 103-107), `_filter_allowed_fragment` (lines 158-162) and
`extract_trip_file` (lines 156-160):

    file_name = path.split("/")[-1]
    file_parts = re.split(r"[_.-]", file_name)
    file_record_type = file_parts[0]
    file_year = int(file_parts[2])
    file_month = int(file_parts[3])

`none` models the `IndexError`/`ValueError` raised when a part is missing
or not an integer literal. -/
def parse_fragment_name (path : String) : Option FragmentMeta :=
  let file_name := py_basename path
  let file_parts := (splitChars sepChar file_name.data).map (fun cs => (⟨cs⟩ : String))
  match file_parts.get? 0, file_parts.get? 2, file_parts.get? 3 with
  | some rt, some ys, some ms =>
    match pyInt ys, pyInt ms with
    | some y, some m => some ⟨rt, y, m⟩
    | _, _ => none
  | _, _, _ => none

/-- A PyArrow dataset fragment as far as the filters inspect it: only its
`path` attribute is read. -/
structure PyFragment where
  path : String
deriving DecidableEq, Repr

/-- Argument accepted by `base.is_allowed_fragment`: either a bare string
or a fragment object (`fragment if isinstance(fragment, str) else
fragment.path`, line 102). -/
inductive FragmentArg where
  | str (s : String)
  | frag (f : PyFragment)
deriving DecidableEq, Repr

/-- The path `base.is_allowed_fragment` extracts from its argument. -/
def fragment_path : FragmentArg → String
  | .str s => s
  | .frag f => f.path

/-- Model of `base.is_allowed_fragment` (base.py lines 100-114).  The
criteria are the keyword arguments: `record_type`, `year`, `months` and
`month`; an absent keyword is `none` (an absent `months` and an empty
`months` are both the empty list, since both are falsy for Python `or`).
The membership test is

    file_month in (kwargs.get("months") or [kwargs.get("month")] or [])

so an empty `months` falls back to the one-element list `[month]`; the
trailing `or []` is dead code because `[month]` is never empty.  An `int`
compared against a `None` element is unequal, so membership of
`file_month` in `[month]` is `month == some file_month`.  `none` models
the exception raised when the filename does not decompose. -/
def is_allowed_fragment (fragment : FragmentArg) (record_type : Option String)
    (year : Option Int) (months : List Int) (month : Option Int) : Option Bool :=
  match parse_fragment_name (fragment_path fragment) with
  | none => none
  | some f =>
      some ((record_type == some f.record_type) &&
            (year == some f.year) &&
            (if months.isEmpty then month == some f.month else months.contains f.month))

/-- Model of `extract_trips_metadata._filter_allowed_fragment` (lines
156-169) and of the inline filter of `extract_trips_data.extract_trip_file`
(lines 156-169), whose membership test is

    file_month in (kwargs.get("months") or [])

an empty or absent `months` therefore matches no month at all. -/
def filter_allowed_fragment (path : String) (record_type : Option String)
    (year : Option Int) (months : List Int) : Option Bool :=
  match parse_fragment_name path with
  | none => none
  | some f =>
      some ((record_type == some f.record_type) &&
            (year == some f.year) &&
            ((if months.isEmpty then ([] : List Int) else months).contains f.month))

/-- The three response headers `ArrowHTTPFileSystem._file_info` consults
for size inference (base.py lines 176-187); `none` is an absent header. -/
structure HttpHeaders where
  content_length : Option String
  content_encoding : Option String
  content_range : Option String
deriving DecidableEq, Repr

/-- The condition of base.py lines 179-184:

    "Content-Encoding" not in r.headers
      or r.headers["Content-Encoding"] in ["identity", ""]
-/
def identity_encoding : Option String → Bool
  | none => true
  | some e => e == "identity" || e == ""

/-- The total declared by a `Content-Range` header, base.py line 187:
`int(r.headers["Content-Range"].split("/")[1])`.  `.error` models the
`IndexError`/`ValueError` raised when the header has no `/` or the piece
after it is not an integer literal. -/
def content_range_total (cr : String) : Except Unit Int :=
  match ((splitChars slashChar cr.data).map (fun cs => (⟨cs⟩ : String))).get? 1 with
  | some s =>
    match pyInt s with
    | some n => .ok n
    | none => .error ()
  | none => .error ()

/-- Size inference of `ArrowHTTPFileSystem._file_info` on a successful
response (base.py lines 176-187).  Note the `elif`: `Content-Range` is
consulted only when `Content-Length` is absent.  `.ok none` means the
response carried no reliable size; `.error` models a raised exception. -/
def file_info_size (h : HttpHeaders) : Except Unit (Option Int) :=
  match h.content_length with
  | some cl =>
      if identity_encoding h.content_encoding then
        match pyInt cl with
        | some n => .ok (some n)
        | none => .error ()
      else .ok none
  | none =>
      match h.content_range with
      | some cr => (content_range_total cr).map (fun n => some n)
      | none => .ok none

/-- Outcome of one policy pass of `ArrowHTTPFileSystem._info` (base.py
lines 131-148): either `_file_info` raised (with the given underlying
cause) or it returned, contributing an optional size to the `info`
dictionary. -/
inductive PhaseResult where
  | err (cause : String)
  | ok (size : Option Int)
deriving DecidableEq, Repr

/-- The `for policy in ["head", "get"]` loop of `ArrowHTTPFileSystem._info`
(base.py lines 131-148), as a function of the two phases' potential
outcomes.  A head result with a size breaks out of the loop (the get
phase is never attempted, hence never inspected); a head exception is
logged and swallowed; a get exception becomes `FileNotFoundError(url)
from exc`, modelled as `.error` carrying the get phase's cause. -/
def info_loop : PhaseResult → PhaseResult → Except String (Option Int)
  | .ok (some n), _ => .ok (some n)
  | .ok none, .ok s => .ok s
  | .ok none, .err c => .error c
  | .err _, .ok s => .ok s
  | .err _, .err c => .error c

/-- Per-fragment outcome of `download_trip_file`
(extract_trips_data.py lines 106-148): download of a missing file,
download of a stale file, or no transfer at all. -/
inductive SyncOutcome where
  | create
  | update
  | skip
deriving DecidableEq, Repr

/-- Local destination state read by `download_trip_file`:
`destination.exists()` and, when it exists, the `mtime` reported by
`local_fs.get_file_info` (which PyArrow may leave unset, hence
`Option`). -/
structure LocalState where
  destination_exists : Bool
  mtime : Option Int
deriving DecidableEq, Repr

/-- The decision logic of `download_trip_file` (extract_trips_data.py
lines 120-148):

    local_modification_time = (... .mtime if destination_exists else None)
    destination_need_update = (
        local_modification_time and s3_modification_time
        and (local_modification_time < s3_modification_time))
    if not destination_exists or destination_need_update: <copy>
    else: <up to date>

A `None` operand makes the `and` chain falsy; `datetime` values are
always truthy, so the chain is true exactly when both times are present
and the local one is strictly older. -/
def download_trip_file_decision (s3_modification_time : Option Int) (st : LocalState) : SyncOutcome :=
  let local_modification_time := if st.destination_exists then st.mtime else none
  let destination_need_update : Bool :=
    match local_modification_time, s3_modification_time with
    | some l, some s => decide (l < s)
    | _, _ => false
  if !st.destination_exists then .create
  else if destination_need_update then .update
  else .skip

/-- One sync pass over a list of fragments, each given by its remote
(S3) modification time and the state of its local destination. -/
def run_sync (fragments : List (Option Int × LocalState)) : List SyncOutcome :=
  fragments.map (fun fr => download_trip_file_decision fr.1 fr.2)

/-- Local destination state after one `download_trip_file` pass: a skip
leaves the file untouched, a create or update writes it, so it exists
with the write time as its modification time. -/
def after_run_state (write_time : Int) (s3_modification_time : Option Int)
    (st : LocalState) : LocalState :=
  match download_trip_file_decision s3_modification_time st with
  | .skip => st
  | _ => ⟨true, some write_time⟩

/-- The orchestration of `extract_trips_data.main` (lines 245-257):
`Parallel(...)(delayed(extract_trip_file)(...) for ...)`.  Neither
`extract_trip_file` nor `main` wraps the task body in `try`/`except`,
and joblib re-raises a task's exception out of the `Parallel` call, so a
single raising task aborts the whole run; sibling results are lost.
Each task is modelled by its potential outcome: `.error` when the task
raises, `.ok` with its sync outcome otherwise. -/
def parallel_extract : List (Except String SyncOutcome) → Except String (List SyncOutcome)
  | [] => .ok []
  | t :: rest =>
    match t with
    | .error e => .error e
    | .ok o =>
      match parallel_extract rest with
      | .error e => .error e
      | .ok os => .ok (o :: os)

/-- Decimal digits of `n`, most significant first, by repeated division;
`fuel` bounds the recursion and any `fuel > n` is enough. -/
def natToChars (fuel n : Nat) : List Char :=
  match fuel with
  | 0 => []
  | fuel + 1 =>
    if n < 10 then [Nat.digitChar n]
    else natToChars fuel (n / 10) ++ [Nat.digitChar (n % 10)]

/-- Decimal rendering of a natural number. -/
def natStr (n : Nat) : String := ⟨natToChars (n + 1) n⟩

/-- Python's `str(i)` / `f"{i}"` for an int. -/
def intStr (i : Int) : String := if i < 0 then "-" ++ natStr i.natAbs else natStr i.natAbs

/-- Python's format specifier `{i:02}`: pad with zeros on the left to a
minimum width of two characters. -/
def format02 (i : Int) : String :=
  if (intStr i).length < 2 then "0" ++ intStr i else intStr i

/-- extract_trips_data.py line 37. -/
def DATASETS_CLOUDFRONT_BASE_URL : String := "https://d37ci6vzurychx.cloudfront.net/trip-data"

/-- The f-string of `_prepare_sources` (extract_trips_data.py line 98):
`f"{DATASETS_CLOUDFRONT_BASE_URL}/{record_type}_tripdata_{year}-{month:02}.parquet"`. -/
def trip_file_url (record_type : String) (year : Int) (month : Int) : String :=
  DATASETS_CLOUDFRONT_BASE_URL ++ "/" ++ record_type ++ "_tripdata_" ++ intStr year ++
    "-" ++ format02 month ++ ".parquet"

/-- The web branch of `_prepare_sources` (extract_trips_data.py lines
96-101): one candidate URL per requested month, by list comprehension
over `months`. -/
def prepare_sources_web (record_type : String) (year : Int) (months : List Int) : List String :=
  months.map (fun month => trip_file_url record_type year month)

/-- Outcome of the update branch of `extract_zones_data.safe_download_file`
for an already-existing destination: a re-download, an "is up to date"
log line, or a raised exception. -/
inductive ZonesOutcome where
  | downloaded
  | upToDate
  | errored
deriving DecidableEq, Repr

/-- The freshness check of `extract_zones_data.safe_download_file` (lines
60-74), reached when the destination file exists:

    server_last_modified_time = local_last_modified_time
    response = requests.head(url)
    if response.status_code == 200:
        server_last_modified_time = strptime(response.headers["Last-Modified"], ...)
    if server_last_modified_time > local_last_modified_time: download_file(...)
    else: "... is up to date."

`last_modified` is the parsed `Last-Modified` header of the HEAD
response, `none` when the header is absent or unparsable — in which case
the code raises (`KeyError`/`ValueError`), modelled as `.errored`. -/
def safe_download_file_update (local_last_modified_time : Int) (status_code : Nat)
    (last_modified : Option Int) : ZonesOutcome :=
  let server : Except Unit Int :=
    if status_code = 200 then
      match last_modified with
      | some t => .ok t
      | none => .error ()
    else .ok local_last_modified_time
  match server with
  | .error _ => .errored
  | .ok server_last_modified_time =>
      if local_last_modified_time < server_last_modified_time then .downloaded else .upToDate

/-- The filename template the spec's grammar claims describe:
`{type}_tripdata_{year}-{month}.{ext}`. -/
def grammar_name (t ys ms ext : String) : String :=
  t ++ "_tripdata_" ++ ys ++ "-" ++ ms ++ "." ++ ext

/-- Modelled from the spec: the filename grammar
`{type}_tripdata_{year}-{month}.{ext}`, "tokens separated by '_', '.',
or '-'" — so the type token itself contains no separator, and the year
and month tokens are decimal digit runs.  This is the spec-side
definition a refinement claim compares the source's parser against; the
source has no grammar-matching code of its own. -/
def matches_spec_grammar (name : String) : Prop :=
  ∃ t ys ms ext,
    (∀ c ∈ t.data, sepChar c = false) ∧
    (∀ c ∈ ys.data, c.isDigit = true) ∧ ys.data ≠ [] ∧
    (∀ c ∈ ms.data, c.isDigit = true) ∧ ms.data ≠ [] ∧
    name = grammar_name t ys ms ext

/-! ## Helper lemmas about the splitter -/

theorem splitChars_ne_nil (p : Char → Bool) (l : List Char) : splitChars p l ≠ [] := by
  induction l with
  | nil => simp [splitChars]
  | cons c cs ih =>
    by_cases hc : p c
    · simp [splitChars, hc]
    · cases hs : splitChars p cs with
      | nil => exact absurd hs ih
      | cons t ts => simp [splitChars, hc, hs]

theorem splitChars_cons_sep (p : Char → Bool) (c : Char) (l : List Char) (hc : p c = true) :
    splitChars p (c :: l) = [] :: splitChars p l := by
  simp [splitChars, hc]

theorem splitChars_append_nosep (p : Char → Bool) (xs ys : List Char) (z : List Char)
    (zs : List (List Char)) (hxs : ∀ c ∈ xs, p c = false)
    (hys : splitChars p ys = z :: zs) :
    splitChars p (xs ++ ys) = (xs ++ z) :: zs := by
  induction xs with
  | nil => simpa using hys
  | cons c cs ih =>
    have hc : p c = false := hxs c (by simp)
    have ih2 := ih (fun d hd => hxs d (by simp [hd]))
    simp [splitChars, hc, ih2]

theorem splitChars_nosep (p : Char → Bool) (xs : List Char) (hxs : ∀ c ∈ xs, p c = false) :
    splitChars p xs = [xs] := by
  have h := splitChars_append_nosep p xs [] [] [] hxs rfl
  simpa using h

theorem py_basename_no_slash (s : String) (h : ∀ c ∈ s.data, slashChar c = false) :
    py_basename s = s := by
  have h1 : splitChars slashChar s.data = [s.data] := splitChars_nosep _ _ h
  show (⟨(splitChars slashChar s.data).getLastD []⟩ : String) = s
  rw [h1]
  rfl

theorem grammar_name_data (t ys ms ext : String) :
    (grammar_name t ys ms ext).data =
      t.data ++ '_' :: ("tripdata".data ++ '_' :: (ys.data ++ '-' :: (ms.data ++ '.' :: ext.data))) := by
  have e1 : "_tripdata_".data = '_' :: ("tripdata".data ++ ['_']) := rfl
  have e2 : "-".data = ['-'] := rfl
  have e3 : ".".data = ['.'] := rfl
  simp [grammar_name, String.data_append, e1, e2, e3]

theorem splitChars_grammar (t ys ms ext : String)
    (ht : ∀ c ∈ t.data, sepChar c = false)
    (hys : ∀ c ∈ ys.data, sepChar c = false)
    (hms : ∀ c ∈ ms.data, sepChar c = false) :
    splitChars sepChar (grammar_name t ys ms ext).data =
      t.data :: "tripdata".data :: ys.data :: ms.data :: splitChars sepChar ext.data := by
  obtain ⟨z, zs, hz⟩ : ∃ z zs, splitChars sepChar ext.data = z :: zs := by
    cases h : splitChars sepChar ext.data with
    | nil => exact absurd h (splitChars_ne_nil _ _)
    | cons a as => exact ⟨a, as, rfl⟩
  have htd : ∀ c ∈ "tripdata".data, sepChar c = false := by decide
  have h1 : splitChars sepChar ('.' :: ext.data) = [] :: z :: zs := by
    rw [splitChars_cons_sep _ _ _ (by decide), hz]
  have h2 : splitChars sepChar (ms.data ++ '.' :: ext.data) = ms.data :: z :: zs := by
    have h := splitChars_append_nosep sepChar ms.data _ _ _ hms h1
    simpa using h
  have h3 : splitChars sepChar ('-' :: (ms.data ++ '.' :: ext.data)) = [] :: ms.data :: z :: zs := by
    rw [splitChars_cons_sep _ _ _ (by decide), h2]
  have h4 : splitChars sepChar (ys.data ++ '-' :: (ms.data ++ '.' :: ext.data)) =
      ys.data :: ms.data :: z :: zs := by
    have h := splitChars_append_nosep sepChar ys.data _ _ _ hys h3
    simpa using h
  have h5 : splitChars sepChar ('_' :: (ys.data ++ '-' :: (ms.data ++ '.' :: ext.data))) =
      [] :: ys.data :: ms.data :: z :: zs := by
    rw [splitChars_cons_sep _ _ _ (by decide), h4]
  have h6 : splitChars sepChar ("tripdata".data ++ '_' :: (ys.data ++ '-' :: (ms.data ++ '.' :: ext.data))) =
      "tripdata".data :: ys.data :: ms.data :: z :: zs := by
    have h := splitChars_append_nosep sepChar "tripdata".data _ _ _ htd h5
    simpa using h
  have h7 : splitChars sepChar ('_' :: ("tripdata".data ++ '_' :: (ys.data ++ '-' :: (ms.data ++ '.' :: ext.data)))) =
      [] :: "tripdata".data :: ys.data :: ms.data :: z :: zs := by
    rw [splitChars_cons_sep _ _ _ (by decide), h6]
  have h8 := splitChars_append_nosep sepChar t.data _ _ _ ht h7
  rw [grammar_name_data, h8, hz]
  simp

theorem string_mk_data (s : String) : (⟨s.data⟩ : String) = s := rfl

theorem digit_not_sep (c : Char) (h : c.isDigit = true) : sepChar c = false := by
  cases hsc : sepChar c
  · rfl
  · exfalso
    unfold sepChar at hsc
    simp only [Bool.or_eq_true, decide_eq_true_eq] at hsc
    rcases hsc with (rfl | rfl) | rfl <;> exact absurd h (by decide)

/-- C5 (amended): for every filename of the grammar
`{type}_tripdata_{year}-{month}.{ext}` — the type token free of the
separators and of slashes, the year and month tokens accepted by
Python's `int` — the shared filename decomposition recovers exactly the
original record type (token 0), year (token 2 as int) and month (token 3
as int).  The converse direction of the original claim, that every
filename outside the grammar fails to parse, is false on the code (see
the counterexample): the decomposition never checks token 1 against
`"tripdata"` nor the ranges of year and month, so it fails only when a
token is missing or tokens 2 or 3 are not integer literals. -/
theorem C5_grammar_roundtrip (t ys ms ext : String) (y m : Int)
    (ht : ∀ c ∈ t.data, sepChar c = false ∧ slashChar c = false)
    (hys : ∀ c ∈ ys.data, sepChar c = false ∧ slashChar c = false)
    (hms : ∀ c ∈ ms.data, sepChar c = false ∧ slashChar c = false)
    (hext : ∀ c ∈ ext.data, slashChar c = false)
    (hy : pyInt ys = some y) (hm : pyInt ms = some m) :
    parse_fragment_name (grammar_name t ys ms ext) = some ⟨t, y, m⟩ := by
  have hslash : ∀ c ∈ (grammar_name t ys ms ext).data, slashChar c = false := by
    rw [grammar_name_data]
    simp only [List.forall_mem_append, List.forall_mem_cons]
    exact ⟨fun c hc => (ht c hc).2, by decide, by decide, by decide,
      fun c hc => (hys c hc).2, by decide, fun c hc => (hms c hc).2, by decide, hext⟩
  have hb : py_basename (grammar_name t ys ms ext) = grammar_name t ys ms ext :=
    py_basename_no_slash _ hslash
  have hs := splitChars_grammar t ys ms ext (fun c hc => (ht c hc).1)
    (fun c hc => (hys c hc).1) (fun c hc => (hms c hc).1)
  simp only [parse_fragment_name]
  rw [hb, hs]
  simp only [List.map_cons, string_mk_data, List.get?_cons_zero, List.get?_cons_succ]
  rw [hy, hm]

/-- C5 counterexample: `green_records_2020-07.parquet` does not match the
grammar `{type}_tripdata_{year}-{month}.{ext}` — no decomposition can
make its second token `tripdata` — yet the filename decomposition does
not fail on it: it parses to record type `green`, year 2020, month 7.
This refutes "for every filename not matching the grammar, parsing fails
with a parse error". -/
theorem C5_counterexample :
    parse_fragment_name "green_records_2020-07.parquet" =
      some ⟨"green", 2020, 7⟩ ∧
    ¬ matches_spec_grammar "green_records_2020-07.parquet" := by
  constructor
  · decide
  · rintro ⟨t, ys, ms, ext, ht, hysd, -, hmsd, -, heq⟩
    have hys : ∀ c ∈ ys.data, sepChar c = false := fun c hc => digit_not_sep c (hysd c hc)
    have hms : ∀ c ∈ ms.data, sepChar c = false := fun c hc => digit_not_sep c (hmsd c hc)
    have hs := splitChars_grammar t ys ms ext ht hys hms
    rw [← heq] at hs
    have hconcrete : splitChars sepChar "green_records_2020-07.parquet".data =
        ["green".data, "records".data, "2020".data, "07".data, "parquet".data] := by decide
    rw [hconcrete] at hs
    have h1 := congrArg (fun l => l.get? 1) hs
    simp only [List.get?_cons_zero, List.get?_cons_succ, Option.some.injEq] at h1
    exact absurd h1 (by decide)

/-- C5 witness: the round-trip theorem applied to the concrete grammar
instance `yellow_tripdata_2023-01.parquet`. -/
theorem C5_grammar_roundtrip_witness :
    parse_fragment_name (grammar_name "yellow" "2023" "01" "parquet") =
      some ⟨"yellow", 2023, 1⟩ :=
  C5_grammar_roundtrip "yellow" "2023" "01" "parquet" 2023 1
    (by decide) (by decide) (by decide) (by decide) (by decide) (by decide)

theorem list_contains_iff (l : List Int) (m : Int) : l.contains m = true ↔ m ∈ l := by
  simp [List.contains, List.elem_iff]

theorem months_or_empty_contains (months : List Int) (m : Int) :
    ((if months.isEmpty then ([] : List Int) else months).contains m) = months.contains m := by
  cases months <;> simp

/-- C4: for every fragment whose filename parses and every selection
criteria, `_filter_allowed_fragment` (and the identical inline filter of
`extract_trip_file`) returns true exactly when the record type, the year
and the month all match, an empty months set matching nothing; and on
criteria without the separate `month` keyword (the shape this claim
quantifies over) `base.is_allowed_fragment` computes the same answer. -/
theorem C4_filter_rule (path : String) (rt : String) (yr : Int) (months : List Int)
    (f : FragmentMeta) (hp : parse_fragment_name path = some f) :
    (filter_allowed_fragment path (some rt) (some yr) months = some true ↔
        rt = f.record_type ∧ yr = f.year ∧ f.month ∈ months)
  ∧ (months = [] → filter_allowed_fragment path (some rt) (some yr) months = some false)
  ∧ (∀ rt2 yr2 months2, filter_allowed_fragment path rt2 yr2 months2 =
        is_allowed_fragment (.str path) rt2 yr2 months2 none) := by
  refine ⟨?_, ?_, ?_⟩
  · simp only [filter_allowed_fragment, hp, months_or_empty_contains, Option.some.injEq,
      Bool.and_eq_true, beq_iff_eq, Option.some.injEq, list_contains_iff]
    tauto
  · rintro rfl
    simp [filter_allowed_fragment, hp]
  · intro rt2 yr2 months2
    simp only [filter_allowed_fragment, is_allowed_fragment, fragment_path]
    cases parse_fragment_name path with
    | none => rfl
    | some g =>
      cases months2 with
      | nil => simp
      | cons a l => simp

/-- C4 witness: the filter rule applied to a concrete parsed fragment —
`yellow_tripdata_2023-01.parquet` against criteria (yellow, 2023, {1, 2}). -/
theorem C4_filter_rule_witness :
    filter_allowed_fragment "yellow_tripdata_2023-01.parquet"
      (some "yellow") (some 2023) [1, 2] = some true :=
  (C4_filter_rule "yellow_tripdata_2023-01.parquet" "yellow" 2023 [1, 2]
    ⟨"yellow", 2023, 1⟩ (by decide)).1.mpr ⟨rfl, rfl, by decide⟩

/-- C9: in `base.is_allowed_fragment`, an empty (or absent) `months`
collection falls back to the singleton list holding the separate `month`
keyword: a parsed fragment whose record type and year match is then
allowed exactly when its month equals the supplied `month`; when neither
`months` nor `month` is supplied nothing is allowed; and a bare string
path is accepted in place of a fragment object, with the same result. -/
theorem C9_month_fallback (path : String) (rt : Option String) (yr : Option Int)
    (mo : Option Int) (f : FragmentMeta) (hp : parse_fragment_name path = some f) :
    (is_allowed_fragment (.str path) rt yr [] mo = some true ↔
        rt = some f.record_type ∧ yr = some f.year ∧ mo = some f.month)
  ∧ is_allowed_fragment (.str path) rt yr [] none = some false
  ∧ (∀ months, is_allowed_fragment (.str path) rt yr months mo =
        is_allowed_fragment (.frag ⟨path⟩) rt yr months mo) := by
  refine ⟨?_, ?_, ?_⟩
  · simp only [is_allowed_fragment, fragment_path, hp, List.isEmpty_nil, if_true,
      Option.some.injEq, Bool.and_eq_true, beq_iff_eq]
    tauto
  · simp [is_allowed_fragment, fragment_path, hp]
  · intro months
    rfl

/-- C9 witness: the fallback applied to a concrete parsed fragment with
an empty months set and `month = 1`. -/
theorem C9_month_fallback_witness :
    is_allowed_fragment (.str "yellow_tripdata_2023-01.parquet")
      (some "yellow") (some 2023) [] (some 1) = some true :=
  (C9_month_fallback "yellow_tripdata_2023-01.parquet" (some "yellow") (some 2023)
    (some 1) ⟨"yellow", 2023, 1⟩ (by decide)).1.mpr ⟨rfl, rfl, rfl⟩

/-- C1 (amended): size extraction of `_file_info`.  When `Content-Length`
is present and the encoding is absent, `identity` or empty, the size is
the integer value of `Content-Length`; when `Content-Length` is present
but the encoding is anything else, the size is `None` — the
`Content-Range` total is NOT consulted, because the code reads it in an
`elif` branch reachable only when `Content-Length` is absent; when
`Content-Length` is absent and `Content-Range` declares a total, the
size is that total; when both are absent the size is `None`. -/
theorem C1_size_extraction (h : HttpHeaders) :
    (∀ cl n, h.content_length = some cl → identity_encoding h.content_encoding = true →
        pyInt cl = some n → file_info_size h = .ok (some n))
  ∧ (∀ cl, h.content_length = some cl → identity_encoding h.content_encoding = false →
        file_info_size h = .ok none)
  ∧ (∀ cr n, h.content_length = none → h.content_range = some cr →
        content_range_total cr = .ok n → file_info_size h = .ok (some n))
  ∧ (h.content_length = none → h.content_range = none → file_info_size h = .ok none) := by
  obtain ⟨cl, ce, cr⟩ := h
  refine ⟨?_, ?_, ?_, ?_⟩
  · rintro cl2 n rfl hid hpy
    simp [file_info_size, hid, hpy]
  · rintro cl2 rfl hid
    simp [file_info_size, hid]
  · rintro cr2 n rfl hcr htot
    simp only at hcr
    subst hcr
    simp [file_info_size, htot, Except.map]
  · rintro rfl hcr
    simp only at hcr
    subst hcr
    simp [file_info_size]

/-- C1 counterexample: a response carrying `Content-Length: 100`,
`Content-Encoding: gzip` and `Content-Range: bytes 0-99/500` yields size
`None` — not the Content-Range total 500 the claim requires, because the
`elif` never reaches `Content-Range` when `Content-Length` is present. -/
theorem C1_counterexample :
    file_info_size ⟨some "100", some "gzip", some "bytes 0-99/500"⟩ = .ok none ∧
    file_info_size ⟨some "100", some "gzip", some "bytes 0-99/500"⟩ ≠ .ok (some 500) := by
  constructor
  · rfl
  · intro hcontra
    have h : (Except.ok none : Except Unit (Option Int)) = .ok (some 500) := hcontra
    simp at h

/-- C2: the prober's NotFound behaviour.  `_info` raises its
`FileNotFoundError` exactly when both phases fail — the head phase
yields no size (it raised, or returned without one) AND the get phase
raises; a head-phase exception alone is swallowed (a succeeding get
still returns); the raised error wraps the get phase's underlying cause;
and a head phase that already yielded a size settles the result, the
get phase never being attempted (the result is independent of it). -/
theorem C2_notfound_policy (head get : PhaseResult) :
    ((∃ c, info_loop head get = .error c) ↔
        ((∀ n, head ≠ .ok (some n)) ∧ ∃ c, get = .err c))
  ∧ (∀ n, head = .ok (some n) → ∀ other : PhaseResult, info_loop head other = .ok (some n))
  ∧ (∀ hc s, head = .err hc → get = .ok s → info_loop head get = .ok s)
  ∧ (∀ c, get = .err c → (∀ n, head ≠ .ok (some n)) → info_loop head get = .error c) := by
  refine ⟨?_, ?_, ?_, ?_⟩
  · constructor
    · rintro ⟨c, hc⟩
      cases head with
      | err hcause =>
        cases get with
        | err gcause => exact ⟨fun n h => (by cases h), ⟨gcause, rfl⟩⟩
        | ok s => exact absurd hc (by simp [info_loop])
      | ok s =>
        cases s with
        | none =>
          cases get with
          | err gcause => exact ⟨fun n h => (by cases h), ⟨gcause, rfl⟩⟩
          | ok s2 => exact absurd hc (by simp [info_loop])
        | some n => exact absurd hc (by simp [info_loop])
    · rintro ⟨hno, c, rfl⟩
      cases head with
      | err hcause => exact ⟨c, rfl⟩
      | ok s =>
        cases s with
        | none => exact ⟨c, rfl⟩
        | some n => exact absurd rfl (hno n)
  · rintro n rfl other
    rfl
  · rintro hc s rfl rfl
    rfl
  · rintro c rfl hno
    cases head with
    | err hcause => rfl
    | ok s =>
      cases s with
      | none => rfl
      | some n => exact absurd rfl (hno n)

/-- C3: the sync decision of `download_trip_file`.  A missing destination
is a create; an existing destination with both modification times
present and the remote strictly newer is an update; every other case —
remote older or equal, or either timestamp missing — is a skip (no
transfer). -/
theorem C3_sync_decision (s3mt : Option Int) (st : LocalState) :
    (download_trip_file_decision s3mt st = .create ↔ st.destination_exists = false)
  ∧ (download_trip_file_decision s3mt st = .update ↔
        st.destination_exists = true ∧
          ∃ l s, st.mtime = some l ∧ s3mt = some s ∧ l < s)
  ∧ (download_trip_file_decision s3mt st = .skip ↔
        st.destination_exists = true ∧
          ∀ l s, st.mtime = some l → s3mt = some s → s ≤ l) := by
  obtain ⟨de, lmt⟩ := st
  cases de with
  | false =>
    cases s3mt <;> cases lmt <;>
      simp [download_trip_file_decision]
  | true =>
    cases s3mt with
    | none =>
      cases lmt <;> simp [download_trip_file_decision]
    | some s =>
      cases lmt with
      | none => simp [download_trip_file_decision]
      | some l =>
        by_cases hls : l < s <;>
          simp [download_trip_file_decision, hls] <;> omega

theorem second_decision_skip (write_time : Int) (s3mt : Option Int) (st : LocalState)
    (h : download_trip_file_decision s3mt st ≠ .skip →
        ∀ s, s3mt = some s → s ≤ write_time) :
    download_trip_file_decision s3mt (after_run_state write_time s3mt st) = .skip := by
  cases hd : download_trip_file_decision s3mt st with
  | skip =>
    rw [after_run_state, hd]
    exact hd
  | create =>
    rw [after_run_state, hd]
    cases s3mt with
    | none => rfl
    | some s =>
      have hs := h (by rw [hd]; intro hc; cases hc) s rfl
      simp [download_trip_file_decision]
      omega
  | update =>
    rw [after_run_state, hd]
    cases s3mt with
    | none => rfl
    | some s =>
      have hs := h (by rw [hd]; intro hc; cases hc) s rfl
      simp [download_trip_file_decision]
      omega

/-- C6: sync idempotence.  Running the sync a second time against an
unchanged remote source, over the local states the first run left behind
— every file the first run actually wrote (its decision was a create or
an update, not a skip) carries a write time at or after that fragment's
remote modification time, while fragments the first run skipped are
unconstrained — yields a skip for every fragment: zero creates and zero
updates. -/
theorem C6_idempotent (write_time : Int) (fragments : List (Option Int × LocalState))
    (h : ∀ fr ∈ fragments, download_trip_file_decision fr.1 fr.2 ≠ .skip →
        ∀ s, fr.1 = some s → s ≤ write_time) :
    (∀ o ∈ run_sync (fragments.map
        (fun fr => (fr.1, after_run_state write_time fr.1 fr.2))), o = .skip)
  ∧ (run_sync (fragments.map
        (fun fr => (fr.1, after_run_state write_time fr.1 fr.2)))).count .create = 0
  ∧ (run_sync (fragments.map
        (fun fr => (fr.1, after_run_state write_time fr.1 fr.2)))).count .update = 0 := by
  have hall : ∀ o ∈ run_sync (fragments.map
      (fun fr => (fr.1, after_run_state write_time fr.1 fr.2))), o = .skip := by
    intro o ho
    simp only [run_sync, List.map_map, List.mem_map] at ho
    obtain ⟨fr, hfr, rfl⟩ := ho
    exact second_decision_skip write_time fr.1 fr.2 (h fr hfr)
  refine ⟨hall, ?_, ?_⟩
  · rw [List.count_eq_zero]
    intro hmem
    exact absurd (hall _ hmem) (by simp)
  · rw [List.count_eq_zero]
    intro hmem
    exact absurd (hall _ hmem) (by simp)

/-- C6 witness: a two-fragment run — one fragment created at write time
10, and one skipped fragment whose remote modification time 100 exceeds
that write time but not its local modification time 200 — whose second
pass skips everything. -/
theorem C6_idempotent_witness :
    (∀ o ∈ run_sync ([((some 5 : Option Int), (⟨false, none⟩ : LocalState)),
        (some 100, ⟨true, some 200⟩)].map
        (fun fr => (fr.1, after_run_state 10 fr.1 fr.2))), o = .skip)
  ∧ (run_sync ([((some 5 : Option Int), (⟨false, none⟩ : LocalState)),
        (some 100, ⟨true, some 200⟩)].map
        (fun fr => (fr.1, after_run_state 10 fr.1 fr.2)))).count .create = 0
  ∧ (run_sync ([((some 5 : Option Int), (⟨false, none⟩ : LocalState)),
        (some 100, ⟨true, some 200⟩)].map
        (fun fr => (fr.1, after_run_state 10 fr.1 fr.2)))).count .update = 0 :=
  C6_idempotent 10 [((some 5 : Option Int), (⟨false, none⟩ : LocalState)),
    (some 100, ⟨true, some 200⟩)]
    (by intro fr hfr hns s hs
        simp only [List.mem_cons, List.mem_singleton] at hfr
        rcases hfr with rfl | rfl | hfr
        · simp only [Option.some.injEq] at hs
          omega
        · exact absurd (by decide) hns
        · simp at hfr)

theorem parallel_extract_ok_iff (tasks : List (Except String SyncOutcome))
    (os : List SyncOutcome) :
    parallel_extract tasks = .ok os ↔ tasks = os.map Except.ok := by
  induction tasks generalizing os with
  | nil =>
    simp only [parallel_extract]
    constructor
    · intro h
      cases os with
      | nil => rfl
      | cons o os2 => simp at h
    · intro h
      cases os with
      | nil => rfl
      | cons o os2 => simp at h
  | cons t rest ih =>
    cases t with
    | error e =>
      simp only [parallel_extract]
      constructor
      · intro h
        cases h
      · intro h
        cases os with
        | nil => simp at h
        | cons o os2 =>
          simp only [List.map_cons, List.cons.injEq] at h
          exact absurd h.1 (by simp)
    | ok o =>
      simp only [parallel_extract]
      cases hr : parallel_extract rest with
      | error e =>
        constructor
        · intro h
          cases h
        · intro h
          cases os with
          | nil => simp at h
          | cons o2 os2 =>
            simp only [List.map_cons, List.cons.injEq] at h
            have h2 := (ih os2).mpr h.2
            rw [hr] at h2
            cases h2
      | ok os1 =>
        constructor
        · intro h
          simp only [Except.ok.injEq] at h
          subst h
          have h2 := (ih os1).mp hr
          simp [h2]
        · intro h
          cases os with
          | nil => simp at h
          | cons o2 os2 =>
            simp only [List.map_cons, List.cons.injEq] at h
            obtain ⟨ho, hrest⟩ := h
            have h2 := (ih os2).mpr hrest
            rw [hr] at h2
            simp only [Except.ok.injEq] at h2 ho
            subst h2
            subst ho
            rfl

theorem parallel_extract_error_iff (tasks : List (Except String SyncOutcome)) :
    (∃ e, parallel_extract tasks = .error e) ↔ ∃ e, Except.error e ∈ tasks := by
  induction tasks with
  | nil =>
    simp [parallel_extract]
  | cons t rest ih =>
    cases t with
    | error e =>
      constructor
      · intro _
        exact ⟨e, by simp⟩
      · intro _
        exact ⟨e, by simp [parallel_extract]⟩
    | ok o =>
      constructor
      · rintro ⟨e, he⟩
        cases hr : parallel_extract rest with
        | error e2 =>
          obtain ⟨e3, he3⟩ := ih.mp ⟨e2, hr⟩
          exact ⟨e3, by simp [he3]⟩
        | ok os =>
          rw [parallel_extract, hr] at he
          cases he
      · rintro ⟨e, he⟩
        simp only [List.mem_cons] at he
        rcases he with he | he
        · cases he
        · obtain ⟨e2, he2⟩ := ih.mpr ⟨e, he⟩
          exact ⟨e2, by rw [parallel_extract, he2]⟩

/-- C7 (amended): per-fragment failure is not isolated.  `main` runs
`extract_trip_file` over the fragments with no exception handling at
the task boundary, so the parallel run returns the list of sibling
outcomes exactly when every task succeeds; as soon as any task raises,
the whole run raises one of the raised errors and no per-fragment failed
outcome is recorded. -/
theorem C7_propagation (tasks : List (Except String SyncOutcome)) :
    (∀ os, parallel_extract tasks = .ok os ↔ tasks = os.map Except.ok)
  ∧ ((∃ e, parallel_extract tasks = .error e) ↔ ∃ e, Except.error e ∈ tasks) :=
  ⟨fun os => parallel_extract_ok_iff tasks os, parallel_extract_error_iff tasks⟩

/-- C7 counterexample: with three fragments whose middle task raises a
network error, the run does not record a per-fragment failed outcome
while the siblings complete — it aborts with the raised error and
produces no outcome list at all. -/
theorem C7_counterexample :
    parallel_extract [.ok .skip, .error "network error", .ok .skip] =
      .error "network error" ∧
    ¬ ∃ os, parallel_extract [.ok .skip, .error "network error", .ok .skip] =
      .ok os := by
  constructor
  · rfl
  · rintro ⟨os, h⟩
    have h2 : (Except.error "network error" : Except String (List SyncOutcome)) = .ok os := h
    cases h2

theorem zip_map_self {α β : Type} (f : α → β) (l : List α) :
    ∀ p ∈ (l.map f).zip l, p.1 = f p.2 := by
  induction l with
  | nil =>
    intro p hp
    simp at hp
  | cons a t ih =>
    intro p hp
    simp only [List.map_cons, List.zip_cons_cons, List.mem_cons] at hp
    rcases hp with rfl | hp
    · rfl
    · exact ih p hp

/-- C8: the web branch of `_prepare_sources` yields exactly one candidate
URL per requested month — same length, and position by position the URL
is `{base}/{record_type}_tripdata_{year}-{month:02}.parquet` for that
position's month — and every month in the CLI's 1..12 range is rendered
zero-padded to exactly two digits. -/
theorem C8_web_sources (record_type : String) (year : Int) (months : List Int) :
    (prepare_sources_web record_type year months).length = months.length
  ∧ (∀ p ∈ (prepare_sources_web record_type year months).zip months,
        p.1 = DATASETS_CLOUDFRONT_BASE_URL ++ "/" ++ record_type ++ "_tripdata_" ++
          intStr year ++ "-" ++ format02 p.2 ++ ".parquet")
  ∧ (∀ m ∈ months, 1 ≤ m → m ≤ 12 → (format02 m).length = 2) := by
  refine ⟨by simp [prepare_sources_web], ?_, ?_⟩
  · intro p hp
    have h := zip_map_self (trip_file_url record_type year) months p hp
    rw [h]
    rfl
  · intro m hm h1 h2
    interval_cases m <;> decide

/-- C10: the zones downloader's freshness check for an already-existing
destination.  Any HEAD status other than 200 leaves the server time
equal to the local time, so the file is reported up to date — no
download, no error; a re-download happens exactly when the status is 200
and the parsed `Last-Modified` is strictly newer than the local file's
modification time. -/
theorem C10_zones_freshness (local_time : Int) (status_code : Nat)
    (last_modified : Option Int) :
    (status_code ≠ 200 →
        safe_download_file_update local_time status_code last_modified = .upToDate)
  ∧ (safe_download_file_update local_time status_code last_modified = .downloaded ↔
        status_code = 200 ∧ ∃ t, last_modified = some t ∧ local_time < t) := by
  constructor
  · intro h
    simp [safe_download_file_update, h]
  · by_cases h200 : status_code = 200
    · cases last_modified with
      | none => simp [safe_download_file_update, h200]
      | some t =>
        by_cases hlt : local_time < t <;>
          simp [safe_download_file_update, h200, hlt]
    · simp [safe_download_file_update, h200]
